import Mathlib

/-!
Verification development for the station-data regularization engine in
`src/station_reconstruct/dat_to_nc.py` (class `DatToNcConverter`).

Shallow embedding conventions:

* Measured values are `Val := Option ℚ`; `none` is the missing marker
  (pandas `NaN`), `some q` a finite reading.  Machine floats are embedded
  as exact rationals.
* The `datetime` index built on line 133 of `dat_to_nc.py` is abstracted
  as a `Timestamp`: an absolute hour index (hours since an arbitrary
  epoch, so that `resample("h")`'s truncation to the calendar hour is the
  `hour` field) together with the minute-of-hour (`index.minute`).
* A pandas `DataFrame` row is a structure with one field per column of
  interest; a `DataFrame` is a list of rows in index order.
-/

/-- A cell value: `none` is the explicit missing marker (NaN). -/
abbrev Val := Option ℚ

/-- The reserved missing-value sentinel `-999.99` of the `.dat` format. -/
def sentinel : ℚ := -999.99

/-- Line 138: `df = df.replace(-999.99, np.nan)` acting on one cell.  A cell
that is already missing stays missing; a cell exactly equal to the sentinel
becomes missing; every other value passes through unchanged. -/
def normalizeV (v : Val) : Val :=
  v.bind (fun x => if x = sentinel then none else some x)

/-- Timestamp of a reading at minute resolution: `hour` is the absolute
calendar-hour index, `minute` the minute within that hour. -/
structure Timestamp where
  hour : ℕ
  minute : ℕ
deriving DecidableEq, Repr

/-- One parsed `.dat` row after the datetime construction of line 133 and the
column drop of line 135: a timestamp plus the raw (not yet normalized) sensor
columns.  The sensor set is the canonical one consumed downstream
(`mcp9808` is `self.tas_sensor`, line 43). -/
structure ParsedRow where
  ts : Timestamp
  mcp9808 : ℚ
  vis_light : ℚ
  uv_light : ℚ
  ir_light : ℚ
deriving DecidableEq, Repr

/-- A row after sentinel normalization (line 138): every sensor cell is an
explicit `Val`. -/
structure Obs where
  ts : Timestamp
  mcp9808 : Val
  vis_light : Val
  uv_light : Val
  ir_light : Val
deriving DecidableEq, Repr

/-- Sentinel normalization of a whole parsed row (line 138 applied to each
cell of the row). -/
def normalizeRow (p : ParsedRow) : Obs :=
  { ts := p.ts
    mcp9808 := normalizeV (some p.mcp9808)
    vis_light := normalizeV (some p.vis_light)
    uv_light := normalizeV (some p.uv_light)
    ir_light := normalizeV (some p.ir_light) }

/-- Row-wise mean with NaN skipping, as `df[[...]].mean(axis = 1)` computes
it: the mean of the non-missing entries, missing when there are none. -/
def rowMean (vs : List Val) : Val :=
  let xs := vs.filterMap id
  if xs.length = 0 then none else some (xs.sum / (xs.length : ℚ))

/-- Line 145 and line 148 combined, for the single designated sensor cell:
`df["tas"] = df[[self.tas_sensor]].mean(axis = 1)` followed by
`df["tas"] = df["tas"] + 273.15`. -/
def selectorTas (v : Val) : Val :=
  (rowMean [v]).map (fun c => c + 273.15)

/-- A working row after the Selector/Converter stage (lines 144–148): the
normalized observation plus the derived Kelvin column `tas`. -/
structure WorkRow extends Obs where
  tas : Val
deriving DecidableEq, Repr

/-- Lines 144–148: assigning the new `tas` column leaves every pre-existing
column of the row untouched. -/
def addTas (o : Obs) : WorkRow :=
  { toObs := o, tas := selectorTas o.mcp9808 }

/-- Lines 151–156: the custom aggregation applied to one hourly series of one
column.  `series.nunique()` counts the distinct non-missing values (pandas
drops NaN); `np.mean(series)` on a pandas series skips NaN, so it is the sum
of the non-missing values over their count. -/
def custom_aggregation (series : List Val) : Val :=
  let xs := series.filterMap id
  if xs.dedup.length ≤ 2 then none
  else some (xs.sum / (xs.length : ℚ))

/-- Minimum of a list of hour indices (the first index entry seeds the fold);
`minH (rows.map hour)` is `df.index.min()` truncated to the hour. -/
def minH (hs : List ℕ) : ℕ :=
  match hs with
  | [] => 0
  | h :: t => t.foldl min h

/-- Maximum of a list of hour indices, `df.index.max()` truncated to the
hour. -/
def maxH (hs : List ℕ) : ℕ :=
  match hs with
  | [] => 0
  | h :: t => t.foldl max h

/-- The contiguous axis of hourly bins `df.resample("h")` generates: every
calendar hour from the earliest to the latest timestamp of the frame,
inclusive, in increasing order (empty bins included). -/
def hourAxis (hs : List ℕ) : List ℕ :=
  match hs with
  | [] => []
  | _ :: _ => List.range' (minH hs) (maxH hs - minH hs + 1)

/-- Hourly bins of a working frame. -/
def hoursOf (rows : List WorkRow) : List ℕ :=
  hourAxis (rows.map (fun r => r.ts.hour))

/-- The rows of one hourly bin, in original frame order (a `resample` group
is an index-order slice of the frame). -/
def hourGroup (rows : List WorkRow) (H : ℕ) : List WorkRow :=
  rows.filter (fun r => decide (r.ts.hour = H))

/-- One row of the scalar-mode (`hourly = true`) resampled frame: line 160
applies `custom_aggregation` to every column of the hourly group. -/
structure HourRowScalar where
  hour : ℕ
  mcp9808 : Val
  vis_light : Val
  uv_light : Val
  ir_light : Val
  tas : Val
deriving DecidableEq, Repr

/-- The scalar-mode bucket of hour `H`: each column aggregated independently
by `custom_aggregation` over that column's values in the hour's group. -/
def scalarBucket (rows : List WorkRow) (H : ℕ) : HourRowScalar :=
  { hour := H
    mcp9808 := custom_aggregation ((hourGroup rows H).map (fun r => r.mcp9808))
    vis_light := custom_aggregation ((hourGroup rows H).map (fun r => r.vis_light))
    uv_light := custom_aggregation ((hourGroup rows H).map (fun r => r.uv_light))
    ir_light := custom_aggregation ((hourGroup rows H).map (fun r => r.ir_light))
    tas := custom_aggregation ((hourGroup rows H).map (fun r => r.tas)) }

/-- Line 160: `hourly_df = df.resample("h").apply(custom_aggregation)` —
one row per hourly bin of the frame's span, every column aggregated. -/
def resampleScalar (rows : List WorkRow) : List HourRowScalar :=
  (hoursOf rows).map (scalarBucket rows)

/-- Modelled from the spec: the module `map_minutes_to_grid` providing
`mapping_rule` (imported on line 26) is not part of the sources at hand.
Per §4.5 it is a static, total lookup from a minute-of-hour `0..59` to a cell
`(row, col)` of an 8×8 lattice, supplied as fixed reference data; this
development models it as the concrete total assignment
`m ↦ (m / 8, m % 8)`, which lands in `[0,8)×[0,8)` for every `m < 60`. -/
def mapping_rule (m : ℕ) : ℕ × ℕ := (m / 8, m % 8)

/-- An 8×8 grid payload, total over cell coordinates; only cells with both
coordinates below 8 are ever written. -/
abbrev Grid := ℕ → ℕ → Val

/-- Line 166: `hourly_temp_array = np.nan * np.zeros((8, 8))`. -/
def emptyGrid : Grid := fun _ _ => none

/-- Lines 169–170: look the minute up in the mapping table and overwrite that
cell with the reading's value. -/
def placeReading (g : Grid) (minute : ℕ) (v : Val) : Grid :=
  fun r c =>
    if r = (mapping_rule minute).1 ∧ c = (mapping_rule minute).2 then v
    else g r c

/-- Lines 168–170: the fold over the hour's readings (in original row order)
placing each `tas` value into its mapped cell. -/
def gridForHour (grp : List WorkRow) : Grid :=
  grp.foldl (fun acc r => placeReading acc r.ts.minute r.tas) emptyGrid

/-- One row of the grid-mode (`hourly = false`) resampled frame.  Line 163
creates the frame with a `tas` column; line 172 writes each grid into the
cell of a column named `temp`, so every row's `tas` cell is left missing and
the grid lives in `temp`. -/
structure HourRowGrid where
  hour : ℕ
  tas : Val
  temp : Grid

/-- The grid-mode bucket of hour `H` (lines 165–172). -/
def gridBucket (rows : List WorkRow) (H : ℕ) : HourRowGrid :=
  { hour := H, tas := none, temp := gridForHour (hourGroup rows H) }

/-- Lines 163–172: one grid row per hourly bin of the frame's span. -/
def resampleGrid (rows : List WorkRow) : List HourRowGrid :=
  (hoursOf rows).map (gridBucket rows)

/-- Lines 133–148 common to both modes of `resample_to_hourly_steps`:
normalize the parsed rows and derive the `tas` column. -/
def prepFile (f : List ParsedRow) : List WorkRow :=
  (f.map normalizeRow).map addTas

/-- `resample_to_hourly_steps` (lines 131–174) with `hourly = true`. -/
def resample_to_hourly_steps_scalar (f : List ParsedRow) : List HourRowScalar :=
  resampleScalar (prepFile f)

/-- `resample_to_hourly_steps` (lines 131–174) with `hourly = false`. -/
def resample_to_hourly_steps_grid (f : List ParsedRow) : List HourRowGrid :=
  resampleGrid (prepFile f)

/-- `extract` (lines 115–127) in scalar mode: each file is resampled on its
own (`convert_to_dataframe`, line 66, calls `resample_to_hourly_steps` per
file), and the per-file results are concatenated in file-list order
(`append_to_dataframes`, line 70). -/
def extractScalar (files : List (List ParsedRow)) : List HourRowScalar :=
  (files.map resample_to_hourly_steps_scalar).flatten

/-- The globally concatenated working frame: every file normalized and
converted, in file-list order. -/
def prepAll (files : List (List ParsedRow)) : List WorkRow :=
  (files.map prepFile).flatten

/-- One row of the final scalar-mode `OutputTable` after `transform`
(lines 177–199): columns narrowed to the canonical schema (the raw sensor
column `mcp9808` is dropped by the intersection on line 190). -/
structure OutRowScalar where
  hour : ℕ
  tas : Val
  vis_light : Val
  uv_light : Val
  ir_light : Val
deriving DecidableEq, Repr

/-- Column projection of one scalar row (lines 190–193): keep exactly the
columns appearing in the rename map. -/
def projectScalar (r : HourRowScalar) : OutRowScalar :=
  { hour := r.hour, tas := r.tas, vis_light := r.vis_light
    uv_light := r.uv_light, ir_light := r.ir_light }

/-- `transform` in scalar mode (lines 190–196): project the columns, then
`dropna(subset=["tas"])` removes every row whose `tas` is missing.  The
rename map on line 199 is the identity on the surviving columns. -/
def transformScalar (rows : List HourRowScalar) : List OutRowScalar :=
  ((rows.map projectScalar).filter (fun r => r.tas.isSome))

/-- One row of the final grid-mode `OutputTable`: the grid-mode frame's
columns are `tas` (all missing) and `temp` (the grids); the intersection with
the rename map keys on line 190 keeps only `tas`, dropping `temp`. -/
structure OutRowGrid where
  hour : ℕ
  tas : Val
deriving DecidableEq, Repr

/-- Column projection of one grid row (line 193). -/
def projectGrid (r : HourRowGrid) : OutRowGrid :=
  { hour := r.hour, tas := r.tas }

/-- `transform` in grid mode (lines 190–199): project only; the scalar-mode
`dropna` on line 196 is not executed, so no row is dropped. -/
def transformGrid (rows : List HourRowGrid) : List OutRowGrid :=
  rows.map projectGrid

/-- Rounding to `p` decimal digits, as `df.round(p)` (line 266) on exact
values (the operands of every claim are exact at the chosen precision, so the
tie-breaking convention is immaterial). -/
def roundTo (p : ℕ) (q : ℚ) : ℚ :=
  ((round (q * (10 : ℚ) ^ p) : ℤ) : ℚ) / (10 : ℚ) ^ p

/-- Line 148: the Celsius→Kelvin conversion. -/
def cToK (c : ℚ) : ℚ := c + 273.15

/-- Line 265: the Kelvin→Celsius conversion of `transform_df_to_tas`. -/
def kToC (k : ℚ) : ℚ := k - 273.15

/-- `transform_df_to_tas` (lines 260–269) on one temperature cell: convert
back from Kelvin to Celsius, round to the configured precision (line 266,
default 2 from `get_tas_format_config`), and replace the missing marker with
the sentinel (line 268). -/
def exportVal (v : Val) : ℚ :=
  match v with
  | none => sentinel
  | some k => roundTo 2 (kToC k)

/-- An 8×8 listing of a grid's cells, row-major, for concrete evaluation. -/
def gridCells (g : Grid) : List (List Val) :=
  (List.range 8).map (fun r => (List.range 8).map (fun c => g r c))

/-- The spec's end-to-end example hour: readings at minutes 0, 30 and 45 of
20.0 °C, 22.0 °C and 20.0 °C. -/
def exFileC1 : List ParsedRow :=
  [ { ts := { hour := 0, minute := 0 }, mcp9808 := 20, vis_light := 1, uv_light := 1, ir_light := 1 }
  , { ts := { hour := 0, minute := 30 }, mcp9808 := 22, vis_light := 2, uv_light := 2, ir_light := 2 }
  , { ts := { hour := 0, minute := 45 }, mcp9808 := 20, vis_light := 3, uv_light := 3, ir_light := 3 } ]

/-- An hourly group whose `tas` series has two distinct values (20, 20, 21). -/
def exRowsTwoDistinct : List WorkRow :=
  [ { ts := { hour := 0, minute := 1 }, mcp9808 := some 20, vis_light := none, uv_light := none, ir_light := none, tas := some 20 }
  , { ts := { hour := 0, minute := 2 }, mcp9808 := some 20, vis_light := none, uv_light := none, ir_light := none, tas := some 20 }
  , { ts := { hour := 0, minute := 3 }, mcp9808 := some 21, vis_light := none, uv_light := none, ir_light := none, tas := some 21 } ]

/-- An hourly group whose `tas` series has three distinct values (20, 21, 22). -/
def exRowsThreeDistinct : List WorkRow :=
  [ { ts := { hour := 0, minute := 1 }, mcp9808 := some 20, vis_light := none, uv_light := none, ir_light := none, tas := some 20 }
  , { ts := { hour := 0, minute := 2 }, mcp9808 := some 21, vis_light := none, uv_light := none, ir_light := none, tas := some 21 }
  , { ts := { hour := 0, minute := 3 }, mcp9808 := some 22, vis_light := none, uv_light := none, ir_light := none, tas := some 22 } ]

/-- An hourly group exercising a light-sensor column: `vis_light` has three
distinct values while `tas` has only one. -/
def exRowsColumns : List WorkRow :=
  [ { ts := { hour := 0, minute := 1 }, mcp9808 := some 20, vis_light := some 1, uv_light := none, ir_light := none, tas := some 20 }
  , { ts := { hour := 0, minute := 2 }, mcp9808 := some 20, vis_light := some 2, uv_light := none, ir_light := none, tas := some 20 }
  , { ts := { hour := 0, minute := 3 }, mcp9808 := some 20, vis_light := some 3, uv_light := none, ir_light := none, tas := some 20 } ]

/-- Two readings of the same hour whose minutes map to the same cell (the
spec-modelled mapping is injective, so that means equal minutes): values 1
then 2, in that row order. -/
def exCollide : List WorkRow :=
  [ { ts := { hour := 0, minute := 7 }, mcp9808 := some 1, vis_light := none, uv_light := none, ir_light := none, tas := some 1 }
  , { ts := { hour := 0, minute := 7 }, mcp9808 := some 2, vis_light := none, uv_light := none, ir_light := none, tas := some 2 } ]

/-- An hourly row with a usable (non-missing) canonical temperature. -/
def exKeptRow : HourRowScalar :=
  { hour := 0, mcp9808 := none, vis_light := none, uv_light := none, ir_light := none, tas := some 285 }

/-- A scalar hourly frame with one usable and one all-missing row. -/
def exScalarRows : List HourRowScalar :=
  [ exKeptRow
  , { hour := 1, mcp9808 := none, vis_light := none, uv_light := none, ir_light := none, tas := none } ]

/-- A grid hourly frame with two rows (one of them entirely missing). -/
def exGridRows : List HourRowGrid :=
  [ { hour := 0, tas := none, temp := placeReading emptyGrid 0 (some 285) }
  , { hour := 1, tas := none, temp := emptyGrid } ]

/-- A one-column table containing a sentinel, an ordinary value and an
already-missing cell. -/
def exSentinelTable : List Val := [some sentinel, some 1, none]

/-- Earliest calendar hour among a parsed file's readings. -/
def minHourP (f : List ParsedRow) : ℕ := minH (f.map (fun p => p.ts.hour))

/-- Latest calendar hour among a parsed file's readings. -/
def maxHourP (f : List ParsedRow) : ℕ := maxH (f.map (fun p => p.ts.hour))

/-- Working readings in hours 0 and 2 with a gap at hour 1. -/
def exRowsGap : List WorkRow :=
  [ { ts := { hour := 0, minute := 5 }, mcp9808 := some 20, vis_light := none, uv_light := none, ir_light := none, tas := some 293.15 }
  , { ts := { hour := 2, minute := 10 }, mcp9808 := some 21, vis_light := none, uv_light := none, ir_light := none, tas := some 294.15 } ]

/-- First of two input files that split calendar hour 5 between them:
readings at minutes 0–2. -/
def fileA : List ParsedRow :=
  [ { ts := { hour := 5, minute := 0 }, mcp9808 := 20, vis_light := 0, uv_light := 0, ir_light := 0 }
  , { ts := { hour := 5, minute := 1 }, mcp9808 := 21, vis_light := 0, uv_light := 0, ir_light := 0 }
  , { ts := { hour := 5, minute := 2 }, mcp9808 := 22, vis_light := 0, uv_light := 0, ir_light := 0 } ]

/-- Second of two input files that split calendar hour 5 between them:
readings at minutes 30–32. -/
def fileB : List ParsedRow :=
  [ { ts := { hour := 5, minute := 30 }, mcp9808 := 25, vis_light := 0, uv_light := 0, ir_light := 0 }
  , { ts := { hour := 5, minute := 31 }, mcp9808 := 26, vis_light := 0, uv_light := 0, ir_light := 0 }
  , { ts := { hour := 5, minute := 32 }, mcp9808 := 27, vis_light := 0, uv_light := 0, ir_light := 0 } ]

/-- A file whose only reading is in hour 3. -/
def fileC : List ParsedRow :=
  [ { ts := { hour := 3, minute := 0 }, mcp9808 := 20, vis_light := 0, uv_light := 0, ir_light := 0 } ]

/-- A file whose only reading is in hour 5 (strictly after `fileC`). -/
def fileD : List ParsedRow :=
  [ { ts := { hour := 5, minute := 0 }, mcp9808 := 21, vis_light := 0, uv_light := 0, ir_light := 0 } ]

/-! ## General lemmas about the aggregation and resampling operators -/

/-- The branch structure of `custom_aggregation`, phrased through the number
of distinct non-missing values of the series (what `series.nunique()`
computes). -/
theorem custom_aggregation_spec (series : List Val) :
    ((series.filterMap id).toFinset.card ≤ 2 → custom_aggregation series = none) ∧
    (2 < (series.filterMap id).toFinset.card →
      custom_aggregation series =
        some ((series.filterMap id).sum / ((series.filterMap id).length : ℚ))) := by
  constructor
  · intro h
    rw [List.card_toFinset] at h
    simp [custom_aggregation, h]
  · intro h
    rw [List.card_toFinset] at h
    simp only [custom_aggregation]
    rw [if_neg (by omega)]

/-- Every row of the scalar-mode resampled frame is the bucket of its own
hour. -/
theorem mem_resampleScalar {rows : List WorkRow} {row : HourRowScalar}
    (h : row ∈ resampleScalar rows) : row = scalarBucket rows row.hour := by
  obtain ⟨H, _, rfl⟩ := List.mem_map.mp h
  rfl

/-! ## C1 — grid-mode output and the canonical temperature column -/

/-- C1: the claim fails on the code.  For the spec's example hour (readings
at minutes 0, 30, 45 of 20.0, 22.0, 20.0 °C) the grid built by
`resample_to_hourly_steps` is correct — 293.15 K at `mapping[0]`'s cell,
295.15 K at `mapping[30]`'s cell, 293.15 K at `mapping[45]`'s cell, all
other cells missing — but it is stored under the working column `temp`
(line 172), which the projection of `transform` (line 190) drops, so the
final `OutputTable`'s canonical `tas` column of that hour holds the missing
scalar instead of the grid. -/
theorem grid_output_drops_grid_column :
    ((resample_to_hourly_steps_grid exFileC1).map (fun r => gridCells r.temp) =
      [[ [some 293.15, none, none, none, none, none, none, none],
         [none, none, none, none, none, none, none, none],
         [none, none, none, none, none, none, none, none],
         [none, none, none, none, none, none, some 295.15, none],
         [none, none, none, none, none, none, none, none],
         [none, none, none, none, none, some 293.15, none, none],
         [none, none, none, none, none, none, none, none],
         [none, none, none, none, none, none, none, none] ]]) ∧
    transformGrid (resample_to_hourly_steps_grid exFileC1) = [{ hour := 0, tas := none }] := by
  constructor
  · norm_num [resample_to_hourly_steps_grid, resampleGrid, gridBucket, gridForHour, hoursOf,
      hourAxis, hourGroup, prepFile, exFileC1, normalizeRow, addTas, selectorTas, rowMean,
      normalizeV, sentinel, minH, maxH, placeReading, emptyGrid, mapping_rule, gridCells,
      List.filterMap_cons, List.filterMap_nil, List.range_succ]
  · norm_num [resample_to_hourly_steps_grid, resampleGrid, gridBucket, hoursOf, hourAxis,
      hourGroup, prepFile, exFileC1, normalizeRow, addTas, selectorTas, rowMean, normalizeV,
      sentinel, minH, maxH, transformGrid, projectGrid]

/-! ## C2 — scalar-mode aggregation rule -/

/-- C2: in scalar mode, for every hourly row of the resampled frame, letting
`series` be the non-missing `tas` values of its hour's group: if `series`
has at most 2 distinct values the aggregate is missing, and otherwise it is
the arithmetic mean of `series`. -/
theorem scalar_aggregation_rule (rows : List WorkRow) (row : HourRowScalar)
    (h : row ∈ resampleScalar rows) :
    ((((hourGroup rows row.hour).map (fun r => r.tas)).filterMap id).toFinset.card ≤ 2 →
      row.tas = none) ∧
    (2 < (((hourGroup rows row.hour).map (fun r => r.tas)).filterMap id).toFinset.card →
      row.tas =
        some ((((hourGroup rows row.hour).map (fun r => r.tas)).filterMap id).sum /
          ((((hourGroup rows row.hour).map (fun r => r.tas)).filterMap id).length : ℚ))) := by
  obtain ⟨H, _, rfl⟩ := List.mem_map.mp h
  exact custom_aggregation_spec ((hourGroup rows (scalarBucket rows H).hour).map (fun r => r.tas))

/-- Witness for C2 at the spec's example groups: `[20, 20, 21]` (two distinct
values) aggregates to missing, and `[20, 21, 22]` (three distinct values)
aggregates to their mean `21`. -/
theorem scalar_aggregation_rule_witness :
    (scalarBucket exRowsTwoDistinct 0).tas = none ∧
    (scalarBucket exRowsThreeDistinct 0).tas = some 21 := by
  constructor
  · exact (scalar_aggregation_rule exRowsTwoDistinct (scalarBucket exRowsTwoDistinct 0)
      (by norm_num [resampleScalar, hoursOf, hourAxis, minH, maxH, exRowsTwoDistinct])).1
      (by rw [List.card_toFinset]
          norm_num [exRowsTwoDistinct, hourGroup, scalarBucket, List.filterMap_cons,
            List.filterMap_nil, List.dedup_cons_of_mem, List.dedup_cons_of_not_mem])
  · refine ((scalar_aggregation_rule exRowsThreeDistinct (scalarBucket exRowsThreeDistinct 0)
      (by norm_num [resampleScalar, hoursOf, hourAxis, minH, maxH, exRowsThreeDistinct])).2
      (by rw [List.card_toFinset]
          norm_num [exRowsThreeDistinct, hourGroup, scalarBucket, List.filterMap_cons,
            List.filterMap_nil, List.dedup_cons_of_mem, List.dedup_cons_of_not_mem])).trans ?_
    norm_num [exRowsThreeDistinct, hourGroup, scalarBucket, List.filterMap_cons,
      List.filterMap_nil]

/-! ## C10 — the aggregation rule applies to every column -/

/-- C10: in scalar mode the at-most-2-distinct-values-implies-missing rule is
applied independently to every column of the frame — the raw sensor column
`mcp9808` and the three light columns included, not only `tas`: each hourly
value is missing unless the column had at least 3 distinct non-missing
values in the hour, in which case it is their mean. -/
theorem scalar_aggregation_all_columns (rows : List WorkRow) (row : HourRowScalar)
    (h : row ∈ resampleScalar rows) :
    (((((hourGroup rows row.hour).map (fun r => r.mcp9808)).filterMap id).toFinset.card ≤ 2 →
        row.mcp9808 = none) ∧
      (2 < ((((hourGroup rows row.hour).map (fun r => r.mcp9808)).filterMap id)).toFinset.card →
        row.mcp9808 =
          some (((((hourGroup rows row.hour).map (fun r => r.mcp9808)).filterMap id)).sum /
            ((((((hourGroup rows row.hour).map (fun r => r.mcp9808)).filterMap id)).length : ℚ))))) ∧
    ((((((hourGroup rows row.hour).map (fun r => r.vis_light)).filterMap id)).toFinset.card ≤ 2 →
        row.vis_light = none) ∧
      (2 < ((((hourGroup rows row.hour).map (fun r => r.vis_light)).filterMap id)).toFinset.card →
        row.vis_light =
          some (((((hourGroup rows row.hour).map (fun r => r.vis_light)).filterMap id)).sum /
            ((((((hourGroup rows row.hour).map (fun r => r.vis_light)).filterMap id)).length : ℚ))))) ∧
    ((((((hourGroup rows row.hour).map (fun r => r.uv_light)).filterMap id)).toFinset.card ≤ 2 →
        row.uv_light = none) ∧
      (2 < ((((hourGroup rows row.hour).map (fun r => r.uv_light)).filterMap id)).toFinset.card →
        row.uv_light =
          some (((((hourGroup rows row.hour).map (fun r => r.uv_light)).filterMap id)).sum /
            ((((((hourGroup rows row.hour).map (fun r => r.uv_light)).filterMap id)).length : ℚ))))) ∧
    ((((((hourGroup rows row.hour).map (fun r => r.ir_light)).filterMap id)).toFinset.card ≤ 2 →
        row.ir_light = none) ∧
      (2 < ((((hourGroup rows row.hour).map (fun r => r.ir_light)).filterMap id)).toFinset.card →
        row.ir_light =
          some (((((hourGroup rows row.hour).map (fun r => r.ir_light)).filterMap id)).sum /
            ((((((hourGroup rows row.hour).map (fun r => r.ir_light)).filterMap id)).length : ℚ))))) := by
  obtain ⟨H, _, rfl⟩ := List.mem_map.mp h
  exact ⟨custom_aggregation_spec _, custom_aggregation_spec _, custom_aggregation_spec _,
    custom_aggregation_spec _⟩

/-- Witness for C10: an hour whose `vis_light` column has three distinct
values (1, 2, 3; mean 2) while its raw sensor column `mcp9808` is constant
and therefore missing — the rule acts on each column independently. -/
theorem scalar_aggregation_all_columns_witness :
    (scalarBucket exRowsColumns 0).vis_light = some 2 ∧
    (scalarBucket exRowsColumns 0).mcp9808 = none := by
  have h := scalar_aggregation_all_columns exRowsColumns (scalarBucket exRowsColumns 0)
    (by norm_num [resampleScalar, hoursOf, hourAxis, minH, maxH, exRowsColumns])
  simp only [show (scalarBucket exRowsColumns 0).hour = 0 from rfl] at h
  have hg : hourGroup exRowsColumns 0 = exRowsColumns := by
    norm_num [hourGroup, exRowsColumns]
  rw [hg] at h
  constructor
  · refine (h.2.1.2 ?_).trans ?_
    · rw [List.card_toFinset]
      norm_num [exRowsColumns, List.filterMap_cons, List.filterMap_nil,
        List.dedup_cons_of_mem, List.dedup_cons_of_not_mem]
    · norm_num [exRowsColumns, List.filterMap_cons, List.filterMap_nil]
  · refine h.1.1 ?_
    rw [List.card_toFinset]
    norm_num [exRowsColumns, List.filterMap_cons, List.filterMap_nil,
      List.dedup_cons_of_mem, List.dedup_cons_of_not_mem]

/-! ## C4 — unit conversion round trip -/

/-- C4: for every non-missing Celsius value `c` already at the configured
rounding precision (2 decimal digits), converting to Kelvin and exporting
returns `c`: `round(K_to_C(C_to_K(c)), 2) = round(c, 2)`, and composing the
Selector/Converter with the Exporter on such a value is the identity. -/
theorem unit_round_trip (c : ℚ) (h : roundTo 2 c = c) :
    roundTo 2 (kToC (cToK c)) = roundTo 2 c ∧ exportVal (selectorTas (some c)) = c := by
  have hid : kToC (cToK c) = c := by unfold kToC cToK; ring
  refine ⟨by rw [hid], ?_⟩
  have hsel : selectorTas (some c) = some (cToK c) := by
    have h1 : rowMean [some c] = some c := by
      rw [rowMean]
      norm_num [List.filterMap_cons, List.filterMap_nil]
    show ((rowMean [some c]).map (fun z => z + 273.15)) = some (cToK c)
    rw [h1]
    simp [cToK]
  rw [hsel]
  show roundTo 2 (kToC (cToK c)) = c
  rw [hid, h]

/-- Witness for C4 at `c = 20.25` (already at 2-digit precision). -/
theorem unit_round_trip_witness :
    roundTo 2 (kToC (cToK 20.25)) = roundTo 2 20.25 ∧
    exportVal (selectorTas (some 20.25)) = 20.25 :=
  unit_round_trip 20.25 (by norm_num [roundTo, round_eq])

/-! ## C6 — mapping determinism and last-write-wins placement -/

/-- Cell contents of the placement fold, for an arbitrary initial grid: the
cell holds the `tas` value of the last reading (in list order) whose minute
maps to that cell, and is untouched otherwise. -/
theorem gridFold_cell (g : List WorkRow) (acc : Grid) (r c : ℕ) :
    (g.foldl (fun a x => placeReading a x.ts.minute x.tas) acc) r c =
      ((g.filter (fun x => decide (mapping_rule x.ts.minute = (r, c)))).getLast?).elim
        (acc r c) (fun x => x.tas) := by
  induction g generalizing acc with
  | nil => rfl
  | cons x xs ih =>
    rw [List.foldl_cons, ih (placeReading acc x.ts.minute x.tas)]
    by_cases hx : mapping_rule x.ts.minute = (r, c)
    · rw [List.filter_cons_of_pos (by simpa using hx)]
      cases hfl : xs.filter (fun y => decide (mapping_rule y.ts.minute = (r, c))) with
      | nil =>
        simp only [List.getLast?_nil, List.getLast?_singleton, Option.elim_none, Option.elim_some]
        rw [placeReading]
        exact if_pos ⟨by rw [hx], by rw [hx]⟩
      | cons y ys =>
        rw [List.getLast?_cons_cons]
        have hsome : ((y :: ys).getLast?).isSome := by simp
        obtain ⟨z, hz⟩ := Option.isSome_iff_exists.mp hsome
        rw [hz]
        rfl
    · rw [List.filter_cons_of_neg (by simpa using hx)]
      have hplace : placeReading acc x.ts.minute x.tas r c = acc r c := by
        rw [placeReading, if_neg]
        intro hrc
        exact hx (by rw [Prod.ext_iff]; exact ⟨hrc.1.symm, hrc.2.symm⟩)
      rw [hplace]

/-- C6: the minute-to-cell lookup is a pure total function — every lookup of
the same minute `m < 60` returns the same in-range cell — and grid placement
is last-write-wins: a cell of the hour's grid holds the value of the last
reading in original row order whose minute maps to that cell (collisions
overwrite silently; they are not an error), and is missing if no reading
maps to it. -/
theorem mapping_deterministic_last_write_wins (g : List WorkRow) (r c m : ℕ) (hm : m < 60) :
    ((mapping_rule m).1 < 8 ∧ (mapping_rule m).2 < 8) ∧
    gridForHour g r c =
      ((g.filter (fun x => decide (mapping_rule x.ts.minute = (r, c)))).getLast?).bind
        (fun x => x.tas) := by
  refine ⟨⟨?_, ?_⟩, ?_⟩
  · simp only [mapping_rule]; omega
  · simp only [mapping_rule]; omega
  · rw [gridForHour, gridFold_cell]
    cases (g.filter (fun x => decide (mapping_rule x.ts.minute = (r, c)))).getLast? with
    | none => rfl
    | some x => rfl

/-- Witness for C6: two readings of the same hour at minute 7 (same mapped
cell `(0, 7)`) with values 1 then 2 — the cell ends up holding the later
value 2. -/
theorem mapping_deterministic_last_write_wins_witness :
    ((mapping_rule 7).1 < 8 ∧ (mapping_rule 7).2 < 8) ∧
    gridForHour exCollide 0 7 = some 2 := by
  have h := mapping_deterministic_last_write_wins exCollide 0 7 7 (by norm_num)
  refine ⟨h.1, h.2.trans ?_⟩
  norm_num [exCollide, mapping_rule, Prod.ext_iff]

/-! ## C7 — projection drop rule -/

/-- C7: the projection stage drops a row exactly when the run is in scalar
mode and the row's canonical temperature value is missing: a projected
scalar row survives `transform` if and only if its `tas` is non-missing,
while grid-mode `transform` keeps every row. -/
theorem projection_drop_rule (srows : List HourRowScalar) (grows : List HourRowGrid)
    (hr : HourRowScalar) (hmem : hr ∈ srows) :
    (transformGrid grows).length = grows.length ∧
    (projectScalar hr ∈ transformScalar srows ↔ hr.tas.isSome = true) := by
  refine ⟨List.length_map _ _, ?_, ?_⟩
  · intro hin
    have := (List.mem_filter.mp hin).2
    simpa [projectScalar] using this
  · intro htas
    exact List.mem_filter.mpr ⟨List.mem_map_of_mem projectScalar hmem, by simpa [projectScalar] using htas⟩

/-- Witness for C7: in the example scalar frame the hour-0 row (non-missing
`tas`) survives, and the two-row grid frame keeps both rows. -/
theorem projection_drop_rule_witness :
    (transformGrid exGridRows).length = exGridRows.length ∧
    projectScalar exKeptRow ∈ transformScalar exScalarRows := by
  have h := projection_drop_rule exScalarRows exGridRows exKeptRow
    (by norm_num [exScalarRows])
  exact ⟨h.1, h.2.mpr (by norm_num [exKeptRow])⟩

/-! ## C8 — sentinel normalization -/

/-- C8: sentinel normalization maps every cell equal to `-999.99` to the
missing marker, leaves every other cell unchanged, and is idempotent:
normalizing an already-normalized table changes nothing. -/
theorem sentinel_normalization (t : List Val) :
    ((t.map normalizeV).map normalizeV = t.map normalizeV) ∧
    (∀ v ∈ t, v = some sentinel → normalizeV v = none) ∧
    (∀ v ∈ t, v ≠ some sentinel → normalizeV v = v) := by
  refine ⟨?_, ?_, ?_⟩
  · rw [List.map_map]
    refine List.map_congr_left ?_
    intro v _
    show normalizeV (normalizeV v) = normalizeV v
    cases v with
    | none => rfl
    | some x =>
      by_cases hx : x = sentinel
      · simp [normalizeV, hx]
      · simp [normalizeV, hx]
  · intro v _ hv
    subst hv
    simp [normalizeV]
  · intro v _ hv
    cases v with
    | none => rfl
    | some x =>
      have : x ≠ sentinel := fun hx => hv (by rw [hx])
      simp [normalizeV, this]

/-- Witness for C8 on the example table `[-999.99, 1, missing]`: the sentinel
cell becomes missing, the ordinary cell is unchanged, and renormalizing the
normalized table is a no-op. -/
theorem sentinel_normalization_witness :
    ((exSentinelTable.map normalizeV).map normalizeV = exSentinelTable.map normalizeV) ∧
    normalizeV (some sentinel) = none ∧
    normalizeV (some 1) = some 1 := by
  have h := sentinel_normalization exSentinelTable
  refine ⟨h.1, ?_, ?_⟩
  · exact h.2.1 (some sentinel) (by norm_num [exSentinelTable]) rfl
  · exact h.2.2 (some 1) (by norm_num [exSentinelTable]) (by norm_num [sentinel])

/-! ## C9 — the Selector/Converter only adds the derived column -/

/-- C9: the Selector/Converter stage only adds the derived `tas` column: the
working row it returns agrees with its input observation on every
pre-existing column — the designated sensor column `mcp9808` keeps its
original Celsius value — and its `tas` is the converted sensor mean. -/
theorem selector_frame_effect (o : Obs) :
    (addTas o).toObs = o ∧ (addTas o).mcp9808 = o.mcp9808 ∧
    (addTas o).vis_light = o.vis_light ∧ (addTas o).uv_light = o.uv_light ∧
    (addTas o).ir_light = o.ir_light ∧ (addTas o).ts = o.ts ∧
    (addTas o).tas = selectorTas o.mcp9808 :=
  ⟨rfl, rfl, rfl, rfl, rfl, rfl, rfl⟩

/-! ## Lemmas about hour spans and bucket membership -/

/-- A left fold by `min` is bounded by its seed. -/
theorem foldl_min_le_init (l : List ℕ) (a : ℕ) : l.foldl min a ≤ a := by
  induction l generalizing a with
  | nil => exact Nat.le_refl a
  | cons h t ih => exact Nat.le_trans (ih (min a h)) (Nat.min_le_left a h)

/-- A left fold by `min` is bounded by every list element. -/
theorem foldl_min_le_mem {l : List ℕ} {x : ℕ} (hx : x ∈ l) (a : ℕ) : l.foldl min a ≤ x := by
  induction l generalizing a with
  | nil => cases hx
  | cons h t ih =>
    rcases List.mem_cons.mp hx with rfl | hxt
    · exact Nat.le_trans (foldl_min_le_init t (min a x)) (Nat.min_le_right a x)
    · exact ih hxt (min a h)

/-- `minH` bounds every entry of the list from below. -/
theorem minH_le_of_mem {hs : List ℕ} {x : ℕ} (hx : x ∈ hs) : minH hs ≤ x := by
  cases hs with
  | nil => cases hx
  | cons h t =>
    rcases List.mem_cons.mp hx with rfl | hxt
    · exact foldl_min_le_init t x
    · exact foldl_min_le_mem hxt h

/-- A left fold by `max` dominates its seed. -/
theorem le_foldl_max_init (l : List ℕ) (a : ℕ) : a ≤ l.foldl max a := by
  induction l generalizing a with
  | nil => exact Nat.le_refl a
  | cons h t ih => exact Nat.le_trans (Nat.le_max_left a h) (ih (max a h))

/-- A left fold by `max` dominates every list element. -/
theorem le_foldl_max_mem {l : List ℕ} {x : ℕ} (hx : x ∈ l) (a : ℕ) : x ≤ l.foldl max a := by
  induction l generalizing a with
  | nil => cases hx
  | cons h t ih =>
    rcases List.mem_cons.mp hx with rfl | hxt
    · exact Nat.le_trans (Nat.le_max_right a x) (le_foldl_max_init t (max a x))
    · exact ih hxt (max a h)

/-- `maxH` bounds every entry of the list from above. -/
theorem le_maxH_of_mem {hs : List ℕ} {x : ℕ} (hx : x ∈ hs) : x ≤ maxH hs := by
  cases hs with
  | nil => cases hx
  | cons h t =>
    rcases List.mem_cons.mp hx with rfl | hxt
    · exact le_foldl_max_init t x
    · exact le_foldl_max_mem hxt h

/-- Membership in the hourly bin axis: exactly the hours between the span's
minimum and maximum (and the axis of an empty frame is empty). -/
theorem mem_hourAxis {hs : List ℕ} {H : ℕ} :
    H ∈ hourAxis hs ↔ hs ≠ [] ∧ minH hs ≤ H ∧ H ≤ maxH hs := by
  cases hs with
  | nil => simp [hourAxis]
  | cons a t =>
    have hmm : minH (a :: t) ≤ maxH (a :: t) :=
      Nat.le_trans (minH_le_of_mem (List.mem_cons_self a t)) (le_maxH_of_mem (List.mem_cons_self a t))
    rw [hourAxis, List.mem_range'_1]
    constructor
    · rintro ⟨h1, h2⟩
      exact ⟨List.cons_ne_nil a t, h1, by omega⟩
    · rintro ⟨_, h1, h2⟩
      exact ⟨h1, by omega⟩

/-- The hour column of the scalar-mode resampled frame is its hourly axis. -/
theorem resampleScalar_map_hour (rows : List WorkRow) :
    (resampleScalar rows).map (fun r => r.hour) = hoursOf rows := by
  rw [resampleScalar, List.map_map]
  conv_rhs => rw [← List.map_id (hoursOf rows)]
  exact List.map_congr_left (fun a _ => rfl)

/-- The hour column of the grid-mode resampled frame is its hourly axis. -/
theorem resampleGrid_map_hour (rows : List WorkRow) :
    (resampleGrid rows).map (fun r => r.hour) = hoursOf rows := by
  rw [resampleGrid, List.map_map]
  conv_rhs => rw [← List.map_id (hoursOf rows)]
  exact List.map_congr_left (fun a _ => rfl)

/-- Normalization and the Selector/Converter do not touch timestamps. -/
theorem prepFile_map_hour (f : List ParsedRow) :
    (prepFile f).map (fun r => r.ts.hour) = f.map (fun p => p.ts.hour) := by
  rw [prepFile, List.map_map, List.map_map]
  rfl

/-- Every working reading of a prepared file stays within the file's hour
span. -/
theorem prepFile_hour_bounds {f : List ParsedRow} {r : WorkRow} (hr : r ∈ prepFile f) :
    minHourP f ≤ r.ts.hour ∧ r.ts.hour ≤ maxHourP f := by
  have hmem : r.ts.hour ∈ (prepFile f).map (fun r => r.ts.hour) :=
    List.mem_map_of_mem _ hr
  rw [prepFile_map_hour] at hmem
  exact ⟨minH_le_of_mem hmem, le_maxH_of_mem hmem⟩

/-- Every row of a scalar-mode resampled frame has its hour within the
frame's span. -/
theorem resampleScalar_hour_bounds {rows : List WorkRow} {row : HourRowScalar}
    (h : row ∈ resampleScalar rows) :
    minH (rows.map (fun r => r.ts.hour)) ≤ row.hour ∧
      row.hour ≤ maxH (rows.map (fun r => r.ts.hour)) := by
  have hmem : row.hour ∈ (resampleScalar rows).map (fun r => r.hour) :=
    List.mem_map_of_mem _ h
  rw [resampleScalar_map_hour, hoursOf] at hmem
  exact (mem_hourAxis.mp hmem).2

/-- Hourly groups split over concatenated frames. -/
theorem hourGroup_append (a b : List WorkRow) (H : ℕ) :
    hourGroup (a ++ b) H = hourGroup a H ++ hourGroup b H :=
  List.filter_append _ _

/-- A frame with no reading in hour `H` has an empty hour-`H` group. -/
theorem hourGroup_eq_nil {rows : List WorkRow} {H : ℕ}
    (h : ∀ r ∈ rows, r.ts.hour ≠ H) : hourGroup rows H = [] := by
  rw [hourGroup, List.filter_eq_nil_iff]
  intro r hr
  simpa using h r hr

/-- Buckets only depend on the hour's group. -/
theorem scalarBucket_congr {rows rows' : List WorkRow} {H : ℕ}
    (h : hourGroup rows H = hourGroup rows' H) :
    scalarBucket rows H = scalarBucket rows' H := by
  rw [scalarBucket, scalarBucket, h]

/-- Every working reading of the concatenated frame comes from one of the
files. -/
theorem mem_prepAll {files : List (List ParsedRow)} {r : WorkRow} (h : r ∈ prepAll files) :
    ∃ f ∈ files, r ∈ prepFile f := by
  rw [prepAll] at h
  obtain ⟨l, hl, hrl⟩ := List.mem_flatten.mp h
  obtain ⟨f, hf, rfl⟩ := List.mem_map.mp hl
  exact ⟨f, hf, hrl⟩

/-- Every row of the concatenated output comes from one file's resampled
frame. -/
theorem mem_extractScalar {files : List (List ParsedRow)} {row : HourRowScalar}
    (h : row ∈ extractScalar files) :
    ∃ f ∈ files, row ∈ resampleScalar (prepFile f) := by
  rw [extractScalar] at h
  obtain ⟨l, hl, hrl⟩ := List.mem_flatten.mp h
  obtain ⟨f, hf, rfl⟩ := List.mem_map.mp hl
  exact ⟨f, hf, hrl⟩

/-- `extract` peels off its first file. -/
theorem extractScalar_cons (f : List ParsedRow) (rest : List (List ParsedRow)) :
    extractScalar (f :: rest) = resampleScalar (prepFile f) ++ extractScalar rest := by
  rw [extractScalar, List.map_cons, List.flatten_cons]
  rfl

/-- `prepAll` peels off its first file. -/
theorem prepAll_cons (f : List ParsedRow) (rest : List (List ParsedRow)) :
    prepAll (f :: rest) = prepFile f ++ prepAll rest := by
  rw [prepAll, List.map_cons, List.flatten_cons]
  rfl

/-! ## C5 — contiguous hourly axis in grid mode -/

/-- C5: in grid mode, for every non-empty input spanning hours `H0..Hn`, the
resampled output has exactly `n + 1` rows, one per calendar hour of the span
in increasing order with no gaps, and any hour with no contributing reading
still produces a row whose grid is entirely missing. -/
theorem grid_contiguous_axis (rows : List WorkRow) (hne : rows ≠ []) :
    (resampleGrid rows).map (fun r => r.hour) =
      List.range' (minH (rows.map (fun r => r.ts.hour)))
        (maxH (rows.map (fun r => r.ts.hour)) - minH (rows.map (fun r => r.ts.hour)) + 1) ∧
    (resampleGrid rows).length =
      maxH (rows.map (fun r => r.ts.hour)) - minH (rows.map (fun r => r.ts.hour)) + 1 ∧
    ∀ row ∈ resampleGrid rows, hourGroup rows row.hour = [] → row.temp = emptyGrid := by
  have hmap : rows.map (fun r => r.ts.hour) ≠ [] := by
    simpa using hne
  refine ⟨?_, ?_, ?_⟩
  · rw [resampleGrid_map_hour, hoursOf]
    cases hh : rows.map (fun r => r.ts.hour) with
    | nil => exact absurd hh hmap
    | cons a t => rw [hourAxis]
  · have hlen : (resampleGrid rows).length = (hoursOf rows).length := List.length_map _ _
    rw [hlen, hoursOf]
    cases hh : rows.map (fun r => r.ts.hour) with
    | nil => exact absurd hh hmap
    | cons a t => rw [hourAxis, List.length_range']
  · intro row hmem hgrp
    obtain ⟨H, _, rfl⟩ := List.mem_map.mp hmem
    simp only [gridBucket] at hgrp ⊢
    rw [hgrp]
    rfl

/-- Witness for C5: readings in hours 0 and 2 only — three rows come out
(hours 0, 1, 2), and the hour-1 row's grid is entirely missing. -/
theorem grid_contiguous_axis_witness :
    (resampleGrid exRowsGap).length = 3 ∧ (gridBucket exRowsGap 1).temp = emptyGrid := by
  have h := grid_contiguous_axis exRowsGap (by decide)
  constructor
  · rw [h.2.1]
    norm_num [exRowsGap, minH, maxH]
  · refine h.2.2 (gridBucket exRowsGap 1) ?_ ?_
    · show gridBucket exRowsGap 1 ∈ (hoursOf exRowsGap).map (gridBucket exRowsGap)
      refine List.mem_map_of_mem _ ?_
      rw [hoursOf]
      norm_num [hourAxis, minH, maxH, exRowsGap, List.mem_range'_1]
    · simp only [show (gridBucket exRowsGap 1).hour = 1 from rfl]
      norm_num [hourGroup, exRowsGap]

/-! ## C3 — per-file resampling versus global hourly grouping -/

/-- C3 counterexample: the claim that the concatenated table has exactly one
row per calendar hour, computed from all readings across all files, is false:
`fileA` and `fileB` both contain readings of calendar hour 5, and the
concatenated result has two rows for hour 5 — each file was resampled on its
own before concatenation — and differs from resampling the concatenated
readings. -/
theorem extract_not_global_counterexample :
    ((extractScalar [fileA, fileB]).map (fun r => r.hour) = [5, 5]) ∧
    extractScalar [fileA, fileB] ≠
      resample_to_hourly_steps_scalar (fileA ++ fileB) := by
  have hmap : (extractScalar [fileA, fileB]).map (fun r => r.hour) = [5, 5] := by
    simp only [extractScalar, List.map_cons, List.map_nil, List.flatten_cons, List.flatten_nil,
      List.append_nil, List.map_append, resample_to_hourly_steps_scalar, resampleScalar_map_hour,
      hoursOf, prepFile_map_hour]
    norm_num [fileA, fileB, hourAxis, minH, maxH, List.range', List.foldl_cons, List.foldl_nil,
      min_self, max_self]
  refine ⟨hmap, ?_⟩
  intro hEq
  have h2 := congrArg (List.map (fun r => r.hour)) hEq
  rw [hmap, resample_to_hourly_steps_scalar, resampleScalar_map_hour, hoursOf,
    prepFile_map_hour] at h2
  norm_num [fileA, fileB, hourAxis, minH, maxH, List.range', List.foldl_cons, List.foldl_nil,
    min_self, max_self] at h2

/-- C3 (amended): `extract` concatenates per-file hourly tables in file-list
(lexicographic) order, resampling each file on its own; when every file is
non-interleaved with the others — each earlier file's hour span lies
strictly before each later file's — the concatenated table is in strictly
increasing hour order and every row equals the bucket computed from all
readings of its hour across all files. -/
theorem extract_concat_per_file (files : List (List ParsedRow))
    (hord : files.Pairwise (fun f g => maxHourP f < minHourP g)) :
    List.Pairwise (· < ·) ((extractScalar files).map (fun r => r.hour)) ∧
    ∀ row ∈ extractScalar files, row = scalarBucket (prepAll files) row.hour := by
  induction files with
  | nil =>
    constructor
    · exact List.Pairwise.nil
    · intro row hrow
      simp [extractScalar] at hrow
  | cons f rest ih =>
    obtain ⟨hf, hrest⟩ := List.pairwise_cons.mp hord
    have IH := ih hrest
    constructor
    · rw [extractScalar_cons, List.map_append, List.pairwise_append]
      refine ⟨?_, IH.1, ?_⟩
      · rw [resampleScalar_map_hour, hoursOf]
        cases hh : (prepFile f).map (fun r => r.ts.hour) with
        | nil => exact List.Pairwise.nil
        | cons a t =>
          rw [hourAxis]
          exact List.pairwise_lt_range' _ _ 1 (by norm_num)
      · intro x hx y hy
        obtain ⟨rx, hrx, rfl⟩ := List.mem_map.mp hx
        obtain ⟨ry, hry, rfl⟩ := List.mem_map.mp hy
        have hx2 := (resampleScalar_hour_bounds hrx).2
        rw [prepFile_map_hour] at hx2
        obtain ⟨g, hg, hyg⟩ := mem_extractScalar hry
        have hy1 := (resampleScalar_hour_bounds hyg).1
        rw [prepFile_map_hour] at hy1
        have hfg := hf g hg
        have hx2' : rx.hour ≤ maxHourP f := hx2
        have hy1' : minHourP g ≤ ry.hour := hy1
        omega
    · intro row hrow
      rw [extractScalar_cons] at hrow
      rcases List.mem_append.mp hrow with hL | hR
      · have hbk := mem_resampleScalar hL
        have hbd := (resampleScalar_hour_bounds hL).2
        rw [prepFile_map_hour] at hbd
        have hbd' : row.hour ≤ maxHourP f := hbd
        have hnil : hourGroup (prepAll rest) row.hour = [] := by
          apply hourGroup_eq_nil
          intro r hr
          obtain ⟨g, hg, hrg⟩ := mem_prepAll hr
          have hlow := (prepFile_hour_bounds hrg).1
          have hfg := hf g hg
          omega
        have hsame : scalarBucket (prepAll (f :: rest)) row.hour = scalarBucket (prepFile f) row.hour := by
          apply scalarBucket_congr
          rw [prepAll_cons, hourGroup_append, hnil, List.append_nil]
        rw [hsame]
        exact hbk
      · have hbk := IH.2 row hR
        obtain ⟨g, hg, hyg⟩ := mem_extractScalar hR
        have hy1 := (resampleScalar_hour_bounds hyg).1
        rw [prepFile_map_hour] at hy1
        have hy1' : minHourP g ≤ row.hour := hy1
        have hfg := hf g hg
        have hnil : hourGroup (prepFile f) row.hour = [] := by
          apply hourGroup_eq_nil
          intro r hr
          have hup := (prepFile_hour_bounds hr).2
          omega
        have hsame : scalarBucket (prepAll (f :: rest)) row.hour = scalarBucket (prepAll rest) row.hour := by
          apply scalarBucket_congr
          rw [prepAll_cons, hourGroup_append, hnil, List.nil_append]
        rw [hsame]
        exact hbk

/-- Witness for C3 (amended) on two hour-disjoint, chronologically ordered
files (hours 3 and 5). -/
theorem extract_concat_per_file_witness :
    List.Pairwise (fun x1 x2 => x1 < x2) ((extractScalar [fileC, fileD]).map (fun r => r.hour)) ∧
    ∀ row ∈ extractScalar [fileC, fileD], row = scalarBucket (prepAll [fileC, fileD]) row.hour := by
  apply extract_concat_per_file
  refine List.Pairwise.cons ?_ (List.pairwise_singleton _ _)
  intro g hg
  rw [List.mem_singleton] at hg
  subst hg
  norm_num [maxHourP, minHourP, minH, maxH, fileC, fileD]
